import Mathlib

/-
  Verification of the logging subsystem of the bensonisonline/logger
  repository (src/log.ts), shallowly embedded in Lean 4.

  Modelling conventions:
  - JavaScript strings are Lean `String`s; template literals become `++`.
  - The filesystem is modelled by an `Option String` parameter `fsErr`:
    `none` means `appendFileSync` succeeds, `some e` means it throws the
    (stringified) error `e`.  `try`/`catch` becomes an `Except`-valued body
    plus a total handler (`tryCatchStr`).
  - Console output is a list of `(channel, text)` pairs; the channel records
    which console function (`error`/`warn`/`debug`/`log`) was invoked.
  - `chalk` colour functions are modelled by the ANSI escape sequences they
    produce (open code, text, close code 39).
  - The process-wide `logAdapter` binding becomes a `LoggerState` value
    threaded explicitly; an adapter is identified by a value of an abstract
    type `α`, and a dispatch is recorded as an `AdapterCallEv`.
  - The express middleware `logger` becomes `runLogger`, which returns the
    list of events that happen synchronously during the middleware body
    (adapter calls, the `next()` call) plus the replacement `res.end`
    closure (`wrappedEnd`).  A bound adapter's observable behaviour is a
    function `AdapterBeh` saying, for each call, whether it throws.
-/

/-- Log levels, from the `LogLevel` enum in src/log.ts. -/
inductive LogLevel
  | INFO
  | WARN
  | ERROR
  | DEBUG
deriving DecidableEq, Repr

/-- String value of a level (the enum's string payloads). -/
def LogLevel.str : LogLevel → String
  | .INFO => "INFO"
  | .WARN => "WARN"
  | .ERROR => "ERROR"
  | .DEBUG => "DEBUG"

/-- ANSI escape that opens colour `code` (what chalk emits before the text). -/
def ansiOpen (code : String) : String := "\x1b[" ++ code ++ "m"

/-- ANSI escape that closes a foreground colour (what chalk emits after). -/
def ansiClose : String := "\x1b[39m"

namespace chalk

def red (s : String) : String := ansiOpen "31" ++ s ++ ansiClose

def yellow (s : String) : String := ansiOpen "33" ++ s ++ ansiClose

def gray (s : String) : String := ansiOpen "90" ++ s ++ ansiClose

def blue (s : String) : String := ansiOpen "34" ++ s ++ ansiClose

def cyan (s : String) : String := ansiOpen "36" ++ s ++ ansiClose

end chalk

/-- JavaScript truthiness of the optional `method` argument: `undefined` and
the empty string are falsy, every other string is truthy. -/
def jsTruthy : Option String → Bool
  | none => false
  | some s => s != ""

/-- The string value of the optional method (only used under `jsTruthy`). -/
def methodText (method : Option String) : String := method.getD ""

/-- The uncoloured method segment, from the template fragment
`${method ? `${method} ` : ""}` in `DefaultLogAdapter.log`. -/
def methodSeg (method : Option String) : String :=
  if jsTruthy method then methodText method ++ " " else ""

/-- The coloured method segment, from
`const methodColor = method ? chalk.cyan(`${method} `) : "";`. -/
def methodColorSeg (method : Option String) : String :=
  if jsTruthy method then chalk.cyan (methodText method ++ " ") else ""

/-- The `[LEVEL]` tag. -/
def levelTag (level : LogLevel) : String := "[" ++ level.str ++ "]"

/-- The plain line appended to the file:
`const logMessage = `[${level}] ${method ? `${method} ` : ""}${timestamp}: ${message}\n`;`. -/
def plainLine (level : LogLevel) (message : String) (method : Option String)
    (timestamp : String) : String :=
  levelTag level ++ " " ++ methodSeg method ++ timestamp ++ ": " ++ message ++ "\n"

/-- The coloured line before the level tag is colourised:
`const coloredMessage = `[${level}] ${methodColor}${timestamp}: ${message}\n`;`. -/
def coloredLine (level : LogLevel) (message : String) (method : Option String)
    (timestamp : String) : String :=
  levelTag level ++ " " ++ methodColorSeg method ++ timestamp ++ ": " ++ message ++ "\n"

/-- Splits `s` around the first occurrence of `pat`: returns the part before
the match and the part after it, or `none` when `pat` does not occur. -/
def splitAtFirst (pat : List Char) : List Char → Option (List Char × List Char)
  | [] => if pat.isEmpty then some ([], []) else none
  | c :: rest =>
    if pat.isPrefixOf (c :: rest) then some ([], (c :: rest).drop pat.length)
    else
      match splitAtFirst pat rest with
      | some (a, b) => some (c :: a, b)
      | none => none

/-- Replace the first occurrence of `pat` by `repl` (the JavaScript
`String.prototype.replace` with a string pattern replaces only the first
occurrence; with no occurrence the string is returned unchanged). -/
def replaceFirstL (pat repl s : List Char) : List Char :=
  match splitAtFirst pat s with
  | some (a, b) => a ++ repl ++ b
  | none => s

/-- String version of `replaceFirstL`, modelling `s.replace(pat, repl)`. -/
def jsReplaceFirst (pat repl s : String) : String :=
  ⟨replaceFirstL pat.data repl.data s.data⟩

/-- The colour applied to the `[LEVEL]` tag by the `switch` in
`DefaultLogAdapter.log`: ERROR→red, WARN→yellow, DEBUG→gray,
default (INFO)→blue. -/
def levelColor (level : LogLevel) : String → String :=
  match level with
  | .ERROR => chalk.red
  | .WARN => chalk.yellow
  | .DEBUG => chalk.gray
  | .INFO => chalk.blue

/-- Which console function each branch of the `switch` invokes. -/
inductive ConsoleChannel
  | errorC
  | warnC
  | debugC
  | logC
deriving DecidableEq, Repr

/-- Channel selected by the `switch` on the level (default branch = INFO). -/
def consoleChannel (level : LogLevel) : ConsoleChannel :=
  match level with
  | .ERROR => .errorC
  | .WARN => .warnC
  | .DEBUG => .debugC
  | .INFO => .logC

/-- The styled console line: `coloredMessage.replace(`[${level}]`, <colour>(`[${level}]`))`. -/
def styledLine (level : LogLevel) (message : String) (method : Option String)
    (timestamp : String) : String :=
  jsReplaceFirst (levelTag level) (levelColor level (levelTag level))
    (coloredLine level message method timestamp)

/-- One line printed to the console: the channel (which console function ran)
and the text passed to it. -/
structure ConsoleLine where
  channel : ConsoleChannel
  text : String
deriving DecidableEq, Repr

/-- Observable outcome of one `DefaultLogAdapter.log` call: lines appended to
`log/app.log`, how many times an append was attempted, and console output.
The source contains a single `appendFileSync` call and no loop, so every call
attempts the append exactly once. -/
structure AdapterResult where
  fileAppends : List String
  appendAttempts : Nat
  consoleLines : List ConsoleLine
deriving DecidableEq, Repr

/-- Body of the `try` block in `DefaultLogAdapter.log`: build the two lines,
attempt the file append (which throws `e` when the filesystem fails), then
print the styled line on the level's channel.  When the append throws, the
`switch` is never reached, so no styled console line is produced. -/
def defaultLogBody (fsErr : Option String) (level : LogLevel) (message : String)
    (method : Option String) (timestamp : String) : Except String AdapterResult :=
  match fsErr with
  | some e => .error e
  | none =>
    .ok ⟨[plainLine level message method timestamp], 1,
      [⟨consoleChannel level, styledLine level message method timestamp⟩]⟩

/-- Total semantics of `try { body } catch (e) { handler e }` for a body whose
only abrupt exit is a thrown string. -/
def tryCatchStr {A : Type} (body : Except String A) (handler : String → A) : A :=
  match body with
  | .ok a => a
  | .error e => handler e

/-- `DefaultLogAdapter.log`: the whole method, `try` body plus the `catch`
branch `console.error(`Failed to write log: ${error}`)`.  The failed append
was still attempted once; the fallback is the only console line. -/
def DefaultLogAdapter.log (fsErr : Option String) (level : LogLevel)
    (message : String) (method : Option String) (timestamp : String) : AdapterResult :=
  tryCatchStr (defaultLogBody fsErr level message method timestamp)
    (fun e => ⟨[], 1, [⟨.errorC, "Failed to write log: " ++ e⟩]⟩)

/-! Section: Facade, adapter binding and middleware -/

/-- The process-wide binding `let logAdapter: LogAdapter = ...`.  An adapter
is identified by a value of an abstract type `α`; the state holds the
currently bound adapter. -/
structure LoggerState (α : Type) where
  adapter : α
deriving DecidableEq, Repr

/-- One dispatch to an adapter: which adapter received the call and with
which arguments (`adapter.log(level, message, method)`). -/
structure AdapterCallEv (α : Type) where
  adapter : α
  level : LogLevel
  message : String
  method : Option String
deriving DecidableEq, Repr

/-- Builds the dispatch record for `logAdapter.log(level, message, method)`
against the binding currently held in `st`. -/
def mkCall {α : Type} (st : LoggerState α) (level : LogLevel) (message : String)
    (method : Option String) : AdapterCallEv α :=
  ⟨st.adapter, level, message, method⟩

/-- `writeLog(message, level, method)`: reads the current binding and makes
exactly one adapter call (the returned list records the dispatches).  The
source's default `level = LogLevel.INFO` is never relied upon — every caller
in src/log.ts passes the level explicitly — so it is not modelled. -/
def writeLog {α : Type} (st : LoggerState α) (message : String) (level : LogLevel)
    (method : Option String) : List (AdapterCallEv α) :=
  [mkCall st level message method]

/-- `setLogAdapter(adapter)`: replaces the process-wide binding (the old
binding `_st` is discarded). -/
def setLogAdapter {α : Type} (_st : LoggerState α) (adapter : α) : LoggerState α :=
  ⟨adapter⟩

/-- `log.info(message)` — `writeLog(message, LogLevel.INFO)`, no method. -/
def Log.info {α : Type} (st : LoggerState α) (message : String) : List (AdapterCallEv α) :=
  writeLog st message .INFO none

/-- `log.warn(message)` — `writeLog(message, LogLevel.WARN)`, no method. -/
def Log.warn {α : Type} (st : LoggerState α) (message : String) : List (AdapterCallEv α) :=
  writeLog st message .WARN none

/-- `log.debug(message)` — `writeLog(message, LogLevel.DEBUG)`, no method. -/
def Log.debug {α : Type} (st : LoggerState α) (message : String) : List (AdapterCallEv α) :=
  writeLog st message .DEBUG none

/-- `log.error(message)` — `writeLog(message, LogLevel.ERROR)`, no method. -/
def Log.error {α : Type} (st : LoggerState α) (message : String) : List (AdapterCallEv α) :=
  writeLog st message .ERROR none

/-- The request fields the middleware reads. -/
structure Req where
  method : String
  url : String
deriving DecidableEq, Repr

/-- The three arguments the replaced `res.end` receives and forwards. -/
structure EndArgs where
  chunk : Option String
  encoding : Option String
  cb : Option String
deriving DecidableEq, Repr

/-- Events observable during middleware execution: a dispatch to the bound
adapter, the `next()` call, and an invocation of the original `res.end`
with the forwarded arguments. -/
inductive Ev (α : Type)
  | adapterCall (c : AdapterCallEv α)
  | nextCall
  | endDelegated (args : EndArgs)
deriving DecidableEq, Repr

/-- Observable behaviour of the bound adapter's `log` method: for each call,
`none` means it returns normally, `some e` means it throws `e`.  (The
`LogAdapter` interface does not prevent an implementation from throwing.) -/
def AdapterBeh : Type := LogLevel → String → Option String → Option String

/-- An adapter behaviour that never throws — the behaviour the default
adapter exhibits at its boundary (its `try`/`catch` swallows every error). -/
def behNone : AdapterBeh := fun _ _ _ => none

/-- An adapter behaviour whose `log` always throws `"boom"`. -/
def behThrow : AdapterBeh := fun _ _ _ => some "boom"

/-- `` `[${requestId}] ${url} - Request started` ``. -/
def startedMessage (requestId url : String) : String :=
  "[" ++ requestId ++ "] " ++ url ++ " - Request started"

/-- `` `[${requestId}] ${url} - Request completed in ${duration}ms` ``. -/
def completedMessage (requestId url : String) (duration : Int) : String :=
  "[" ++ requestId ++ "] " ++ url ++ " - Request completed in " ++ toString duration ++ "ms"

/-- The replacement `res.end` closure.  Its free variables (`requestId`,
`url`, `method`, `startTime`, captured from the middleware invocation) are
the structure-building arguments; at invocation time it is given the adapter
behaviour, the binding current at that moment (`writeLog` reads `logAdapter`
when it runs, not when the closure was created), the current clock reading
`now` (`Date.now()`), and the `end` arguments. -/
structure WEnd (α : Type) where
  run : AdapterBeh → LoggerState α → Int → EndArgs → List (Ev α)

/-- Body of the replacement `res.end`: compute
`duration = Date.now() - startTime`, call `writeLog` with the completed
message, then `return originalEnd(chunk, encoding, cb)`.  If the adapter
throws inside `writeLog`, the exception propagates and the original `end`
is never reached. -/
def wrappedEnd {α : Type} (requestId url method : String) (startTime : Int) : WEnd α :=
  ⟨fun beh stEnd now args =>
    let msg := completedMessage requestId url (now - startTime)
    let c := mkCall stEnd .INFO msg (some method)
    match beh .INFO msg (some method) with
    | some _ => [.adapterCall c]
    | none => [.adapterCall c, .endDelegated args]⟩

/-- Outcome of one middleware invocation: the events that happened
synchronously inside the middleware body, the exception escaping it (if
any), the correlation id attached to the request, and the replacement
`res.end` (when the patch was reached). -/
structure MwResult (α : Type) where
  trace : List (Ev α)
  exn : Option String
  attachedId : Option String
  patchedEnd : Option (WEnd α)

/-- The middleware `logger(req, res, next)`.  In source order: generate the
request id (`requestId`, supplied here as a parameter in place of
`crypto.randomUUID()`), read method/url, record `startTime` (`Date.now()`,
supplied as a parameter), attach the id to the request, `writeLog` the
started line, replace `res.end`, then call `next()`.  There is no
`try`/`catch`: if the bound adapter throws inside `writeLog`, the exception
propagates out of the middleware before `res.end` is replaced and before
`next()` runs. -/
def runLogger {α : Type} (beh : AdapterBeh) (st : LoggerState α) (req : Req)
    (requestId : String) (startTime : Int) : MwResult α :=
  let msg := startedMessage requestId req.url
  let c := mkCall st .INFO msg (some req.method)
  match beh .INFO msg (some req.method) with
  | some e => ⟨[.adapterCall c], some e, some requestId, none⟩
  | none =>
    ⟨[.adapterCall c, .nextCall], none, some requestId,
      some (wrappedEnd requestId req.url req.method startTime)⟩

/-- Runs the replacement `res.end` once per entry of `invs`, each entry
giving the binding, the clock reading and the arguments of that invocation;
the event lists are concatenated in order. -/
def runEndMany {α : Type} (w : WEnd α) (beh : AdapterBeh)
    (invs : List (LoggerState α × Int × EndArgs)) : List (Ev α) :=
  (invs.map (fun i => w.run beh i.1 i.2.1 i.2.2)).flatten

/-- Recognises a `next()` event. -/
def isNextEv {α : Type} : Ev α → Bool
  | .nextCall => true
  | _ => false

/-- Recognises an adapter-dispatch event. -/
def isAdapterCallEv {α : Type} : Ev α → Bool
  | .adapterCall _ => true
  | _ => false

/-! Section: Module-initialisation and filesystem effects -/

/-- A filesystem side effect of the logging module: creating the `log`
directory, or appending a line to `log/app.log` (the append creates the
file when it does not yet exist). -/
inductive FsEffect
  | mkdirEff
  | appendEff (line : String)
deriving DecidableEq, Repr

/-- The module-level statements of src/log.ts that run at import time:
`if (!existsSync(logDir)) { mkdirSync(logDir, { recursive: true }); }`. -/
def moduleInitEffects (dirExists : Bool) : List FsEffect :=
  if dirExists then [] else [.mkdirEff]

/-- Arguments of one log call made after startup. -/
structure LogCallArgs where
  level : LogLevel
  message : String
  method : Option String
  timestamp : String

/-- Filesystem effects of one successful default-adapter log call. -/
def logCallEffects (c : LogCallArgs) : List FsEffect :=
  (DefaultLogAdapter.log none c.level c.message c.method c.timestamp).fileAppends.map
    FsEffect.appendEff

/-- Filesystem effects of a process run: module initialisation first, then
the effects of each log call in order. -/
def processEffects (dirExists : Bool) (calls : List LogCallArgs) : List FsEffect :=
  moduleInitEffects dirExists ++ (calls.map logCallEffects).flatten

/-- Recognises a file append. -/
def isAppendEff : FsEffect → Bool
  | .appendEff _ => true
  | _ => false

/-! Section: Auxiliary observers used by the claims -/

/-- Extracts the correlation id from a log line of the form `[id] ...`: the
characters between the leading `[` and the first `]`. -/
def extractId (s : String) : Option String :=
  match s.data with
  | '[' :: rest => some ⟨rest.takeWhile (fun c => c != ']')⟩
  | _ => none

/-- Single pass that removes ANSI escape sequences.  The flag says whether
the scanner currently stands inside an escape sequence (after an ESC,
before the terminating `m`). -/
def stripAnsiGo : Bool → List Char → List Char
  | _, [] => []
  | true, c :: rest =>
    if c = 'm' then stripAnsiGo false rest else stripAnsiGo true rest
  | false, c :: rest =>
    if c = '\x1b' then stripAnsiGo true rest else c :: stripAnsiGo false rest

/-- Removes ANSI escape sequences: every segment from an ESC character
through the next `m` (inclusive) is dropped.  This erases exactly the
sequences `ansiOpen`/`ansiClose` produce. -/
def stripAnsiL (l : List Char) : List Char := stripAnsiGo false l

/-- String version of `stripAnsiL`. -/
def stripAnsi (s : String) : String := ⟨stripAnsiL s.data⟩

/-- No ESC character occurs in `s` (so `s` carries no colouring). -/
def noEscStr (s : String) : Prop := '\x1b' ∉ s.data

/-- No ESC character occurs in the optional method. -/
def noEscOpt : Option String → Prop
  | none => True
  | some s => noEscStr s

instance (s : String) : Decidable (noEscStr s) := by
  unfold noEscStr; infer_instance

instance (m : Option String) : Decidable (noEscOpt m) := by
  cases m <;> simp only [noEscOpt] <;> infer_instance

/-- Formalisation of the C6 spec sentence as written: the plain line is
`[LEVEL] [METHOD ]TIMESTAMP: MESSAGE\n`, with the method segment (the
method followed by one space) present if and only if a method was
supplied.  This definition follows the spec's words, for comparison with
`plainLine`, which follows the source. -/
def specPlainLineC6 (level : LogLevel) (message : String) (method : Option String)
    (timestamp : String) : String :=
  levelTag level ++ " "
    ++ (match method with
        | some m => m ++ " "
        | none => "")
    ++ timestamp ++ ": " ++ message ++ "\n"

/-- The C6 claim as amended: the method segment is present iff a method was
supplied and is non-empty — the source tests the method with JavaScript
truthiness, under which a supplied empty string counts as absent. -/
def specPlainLineAmendedC6 (level : LogLevel) (message : String)
    (method : Option String) (timestamp : String) : String :=
  levelTag level ++ " "
    ++ (match method with
        | some m => if m = "" then "" else m ++ " "
        | none => "")
    ++ timestamp ++ ": " ++ message ++ "\n"

/-! Section: Helper lemmas -/

theorem splitAtFirst_leading (pat t : List Char) (h : pat ≠ []) :
    splitAtFirst pat (pat ++ t) = some ([], t) := by
  cases pat with
  | nil => exact absurd rfl h
  | cons c cs =>
    show splitAtFirst (c :: cs) (c :: (cs ++ t)) = some ([], t)
    have hp : (c :: cs).isPrefixOf (c :: (cs ++ t)) = true :=
      List.isPrefixOf_iff_prefix.mpr (List.prefix_append (c :: cs) t)
    unfold splitAtFirst
    rw [hp]
    simp [List.drop_left]

theorem replaceFirstL_leading (pat r t : List Char) (h : pat ≠ []) :
    replaceFirstL pat r (pat ++ t) = r ++ t := by
  unfold replaceFirstL
  rw [splitAtFirst_leading pat t h]
  simp

theorem jsReplaceFirst_leading (pat r t : String) (h : pat.data ≠ []) :
    jsReplaceFirst pat r (pat ++ t) = r ++ t := by
  apply String.ext
  show replaceFirstL pat.data r.data (pat ++ t).data = (r ++ t).data
  rw [String.data_append, String.data_append, replaceFirstL_leading _ _ _ h]

/-- The level tag has a nonempty character list. -/
theorem levelTag_ne_nil (level : LogLevel) : (levelTag level).data ≠ [] := by
  cases level <;> decide

/-- The styled console line in closed form: the `replace` call hits exactly
the leading `[LEVEL]` tag (the coloured message always starts with it), so
the styled line is the coloured tag followed by the rest of the coloured
message unchanged. -/
theorem styledLine_eq (level : LogLevel) (message : String) (method : Option String)
    (timestamp : String) :
    styledLine level message method timestamp
      = levelColor level (levelTag level) ++ " " ++ methodColorSeg method
          ++ timestamp ++ ": " ++ message ++ "\n" := by
  have h1 : coloredLine level message method timestamp
      = levelTag level ++ (" " ++ (methodColorSeg method
          ++ (timestamp ++ (": " ++ (message ++ "\n"))))) := by
    simp [coloredLine, String.append_assoc]
  rw [styledLine, h1, jsReplaceFirst_leading _ _ _ (levelTag_ne_nil level)]
  simp [String.append_assoc]

theorem takeWhile_append_stop (p : Char → Bool) (a : List Char) (b : Char)
    (t : List Char) (ha : ∀ c ∈ a, p c = true) (hb : p b = false) :
    (a ++ b :: t).takeWhile p = a := by
  induction a with
  | nil => simp [List.takeWhile_cons, hb]
  | cons x xs ih =>
    have hx : p x = true := ha x (List.mem_cons_self x xs)
    simp only [List.cons_append, List.takeWhile_cons, hx, if_true]
    rw [ih (fun c hc => ha c (List.mem_cons_of_mem x hc))]

theorem extractId_bracketed (s requestId : String) (t : List Char)
    (hs : s.data = '[' :: (requestId.data ++ (']' :: t)))
    (h : ']' ∉ requestId.data) :
    extractId s = some requestId := by
  unfold extractId
  rw [hs]
  show some (⟨(requestId.data ++ (']' :: t)).takeWhile (fun c => c != ']')⟩ : String)
      = some requestId
  congr 1
  apply String.ext
  show (requestId.data ++ (']' :: t)).takeWhile (fun c => c != ']') = requestId.data
  apply takeWhile_append_stop
  · intro c hc
    simp only [bne_iff_ne, ne_eq]
    exact fun hcq => h (hcq ▸ hc)
  · simp

theorem startedMessage_data (requestId url : String) :
    (startedMessage requestId url).data
      = '[' :: (requestId.data
          ++ (']' :: (' ' :: (url.data ++ (" - Request started").data)))) := by
  simp [startedMessage, String.data_append, List.append_assoc]

theorem completedMessage_data (requestId url : String) (duration : Int) :
    (completedMessage requestId url duration).data
      = '[' :: (requestId.data
          ++ (']' :: (' ' :: (url.data ++ ((" - Request completed in "
              ++ toString duration ++ "ms").data))))) := by
  simp [completedMessage, String.data_append, List.append_assoc]

theorem extractId_started (requestId url : String) (h : ']' ∉ requestId.data) :
    extractId (startedMessage requestId url) = some requestId :=
  extractId_bracketed _ _ _ (startedMessage_data requestId url) h

theorem extractId_completed (requestId url : String) (duration : Int)
    (h : ']' ∉ requestId.data) :
    extractId (completedMessage requestId url duration) = some requestId :=
  extractId_bracketed _ _ _ (completedMessage_data requestId url duration) h

theorem stripAnsiGo_false_append (a l : List Char) (h : '\x1b' ∉ a) :
    stripAnsiGo false (a ++ l) = a ++ stripAnsiGo false l := by
  induction a with
  | nil => simp
  | cons c cs ih =>
    have hc : ¬(c = '\x1b') := fun hh => h (hh ▸ List.mem_cons_self c cs)
    simp only [List.cons_append, stripAnsiGo, if_neg hc]
    exact congrArg _ (ih (fun hm => h (List.mem_cons_of_mem c hm)))

theorem stripAnsiGo_true_skip (nm l : List Char) (h : 'm' ∉ nm) :
    stripAnsiGo true (nm ++ 'm' :: l) = stripAnsiGo false l := by
  induction nm with
  | nil => simp [stripAnsiGo]
  | cons c cs ih =>
    have hc : ¬(c = 'm') := fun hh => h (hh ▸ List.mem_cons_self c cs)
    simp only [List.cons_append, stripAnsiGo, if_neg hc]
    exact ih (fun hm => h (List.mem_cons_of_mem c hm))

theorem stripAnsi_open_append (code b : String) (h : 'm' ∉ code.data) :
    stripAnsi (ansiOpen code ++ b) = stripAnsi b := by
  apply String.ext
  show stripAnsiGo false ((ansiOpen code ++ b).data) = stripAnsiGo false b.data
  have hd : (ansiOpen code ++ b).data
      = '\x1b' :: (('[' :: code.data) ++ ('m' :: b.data)) := by
    simp [ansiOpen, String.data_append, List.append_assoc]
  rw [hd]
  show stripAnsiGo false ('\x1b' :: (('[' :: code.data) ++ ('m' :: b.data)))
      = stripAnsiGo false b.data
  rw [show stripAnsiGo false ('\x1b' :: (('[' :: code.data) ++ ('m' :: b.data)))
      = stripAnsiGo true (('[' :: code.data) ++ ('m' :: b.data)) from by
    simp [stripAnsiGo]]
  apply stripAnsiGo_true_skip
  intro hm
  rcases List.mem_cons.mp hm with h1 | h2
  · exact absurd h1 (by decide)
  · exact h h2

theorem ansiClose_eq : ansiClose = ansiOpen "39" := by decide

theorem stripAnsi_close_append (b : String) :
    stripAnsi (ansiClose ++ b) = stripAnsi b := by
  rw [ansiClose_eq]
  exact stripAnsi_open_append "39" b (by decide)

theorem stripAnsi_noEsc_append (a b : String) (h : noEscStr a) :
    stripAnsi (a ++ b) = a ++ stripAnsi b := by
  apply String.ext
  show stripAnsiGo false ((a ++ b).data) = (a ++ stripAnsi b).data
  rw [String.data_append, stripAnsiGo_false_append a.data b.data h, String.data_append]
  rfl

/-- Stripping a chalk-wrapped segment recovers the wrapped text. -/
theorem stripAnsi_wrap (code s b : String) (hcode : 'm' ∉ code.data)
    (hs : noEscStr s) :
    stripAnsi (ansiOpen code ++ s ++ ansiClose ++ b) = s ++ stripAnsi b := by
  rw [String.append_assoc, String.append_assoc, stripAnsi_open_append _ _ hcode,
    stripAnsi_noEsc_append _ _ hs, stripAnsi_close_append]

theorem stripAnsi_levelColor_tag (level : LogLevel) (b : String) :
    stripAnsi (levelColor level (levelTag level) ++ b) = levelTag level ++ stripAnsi b := by
  cases level <;>
    exact stripAnsi_wrap _ _ _ (by decide) (by decide)

theorem noEscStr_append (a b : String) (ha : noEscStr a) (hb : noEscStr b) :
    noEscStr (a ++ b) := by
  unfold noEscStr at ha hb ⊢
  rw [String.data_append]
  intro hm
  rcases List.mem_append.mp hm with h1 | h2
  · exact ha h1
  · exact hb h2

theorem stripAnsi_methodColorSeg (method : Option String) (b : String)
    (h : noEscOpt method) :
    stripAnsi (methodColorSeg method ++ b) = methodSeg method ++ stripAnsi b := by
  cases method with
  | none =>
    simp [methodColorSeg, methodSeg, jsTruthy, String.empty_append]
  | some m =>
    by_cases hm : m = ""
    · simp [methodColorSeg, methodSeg, jsTruthy, hm, String.empty_append]
    · have ht : jsTruthy (some m) = true := by simp [jsTruthy, hm]
      have hesc : noEscStr (m ++ " ") := noEscStr_append m " " h (by decide)
      simp only [methodColorSeg, methodSeg, ht, if_true, methodText, Option.getD_some,
        chalk.cyan]
      exact stripAnsi_wrap "36" (m ++ " ") b (by decide) hesc

/-- Decolourising the styled console line yields exactly the plain file
line, provided the payload strings carry no ESC character themselves. -/
theorem stripAnsi_styledLine (level : LogLevel) (message : String)
    (method : Option String) (timestamp : String) (hmsg : noEscStr message)
    (hts : noEscStr timestamp) (hm : noEscOpt method) :
    stripAnsi (styledLine level message method timestamp)
      = plainLine level message method timestamp := by
  rw [styledLine_eq]
  rw [show levelColor level (levelTag level) ++ " " ++ methodColorSeg method
        ++ timestamp ++ ": " ++ message ++ "\n"
      = levelColor level (levelTag level) ++ (" " ++ (methodColorSeg method
        ++ (timestamp ++ (": " ++ (message ++ "\n"))))) from by
    simp [String.append_assoc]]
  rw [stripAnsi_levelColor_tag, stripAnsi_noEsc_append " " _ (by decide),
    stripAnsi_methodColorSeg _ _ hm, stripAnsi_noEsc_append _ _ hts,
    stripAnsi_noEsc_append ": " _ (by decide), stripAnsi_noEsc_append _ _ hmsg,
    show stripAnsi "\n" = "\n" from by decide]
  simp [plainLine, String.append_assoc]

/-! Section: Claim theorems -/

/-- Claim C1: for every level, message, and optional method, a call to the
default adapter's log operation never raises past the adapter boundary.
When the file append throws `e`, the `try` body aborts with `e`
(`defaultLogBody` returns `Except.error e`), but the boundary
(`DefaultLogAdapter.log`, the body wrapped in the `catch`) still returns a
value: no successful append, exactly one append attempt (no retry), and
exactly one fallback diagnostic on the console error channel whose text
contains the original error. -/
theorem c1_adapter_never_raises (level : LogLevel) (message : String)
    (method : Option String) (timestamp e : String) :
    defaultLogBody (some e) level message method timestamp = Except.error e
    ∧ DefaultLogAdapter.log (some e) level message method timestamp
        = ⟨[], 1, [⟨.errorC, "Failed to write log: " ++ e⟩]⟩
    ∧ ∃ a b, ("Failed to write log: " ++ e).data = a ++ e.data ++ b := by
  refine ⟨rfl, rfl, ("Failed to write log: " : String).data, [], ?_⟩
  simp [String.data_append]

/-- Claim C3: each facade method (`info`/`warn`/`debug`/`error`) makes
exactly one call to the currently bound adapter, with the corresponding
level, the given message, and no method label. -/
theorem c3_facade_dispatch {α : Type} (st : LoggerState α) (message : String) :
    Log.info st message = [⟨st.adapter, .INFO, message, none⟩]
    ∧ Log.warn st message = [⟨st.adapter, .WARN, message, none⟩]
    ∧ Log.debug st message = [⟨st.adapter, .DEBUG, message, none⟩]
    ∧ Log.error st message = [⟨st.adapter, .ERROR, message, none⟩] :=
  ⟨rfl, rfl, rfl, rfl⟩

/-- Claim C6, counterexample: the claim's "method segment present iff a
method was supplied" fails when the supplied method is the empty string.
At level INFO, message `m`, method `some ""`, timestamp `t`, the adapter
appends `[INFO] t: m\n` (no segment), while the line the claim describes
(`specPlainLineC6`) is `[INFO]  t: m\n` (segment `"" ++ " "` present). -/
theorem c6_counterexample :
    (DefaultLogAdapter.log none .INFO "m" (some "") "t").fileAppends
      = ["[INFO] t: m\n"]
    ∧ specPlainLineC6 .INFO "m" (some "") "t" = "[INFO]  t: m\n"
    ∧ (DefaultLogAdapter.log none .INFO "m" (some "") "t").fileAppends
        ≠ [specPlainLineC6 .INFO "m" (some "") "t"] :=
  ⟨by decide, by decide, by decide⟩

/-- Claim C6 as amended: the line appended to the log file is exactly
`[LEVEL] [METHOD ]TIMESTAMP: MESSAGE\n`, with the method segment present
iff a method was supplied and is non-empty (JavaScript truthiness). -/
theorem c6_file_line_format (level : LogLevel) (message : String)
    (method : Option String) (timestamp : String) :
    (DefaultLogAdapter.log none level message method timestamp).fileAppends
      = [specPlainLineAmendedC6 level message method timestamp] := by
  have h : plainLine level message method timestamp
      = specPlainLineAmendedC6 level message method timestamp := by
    cases method with
    | none => rfl
    | some m =>
      by_cases hm : m = ""
      · subst hm
        simp [plainLine, specPlainLineAmendedC6, methodSeg, jsTruthy]
      · simp [plainLine, specPlainLineAmendedC6, methodSeg, jsTruthy, methodText, hm]
  simp [DefaultLogAdapter.log, defaultLogBody, tryCatchStr, h]

/-- Claim C7: the console line is emitted on the channel matching the
level (ERROR→console.error, WARN→console.warn, DEBUG→console.debug,
INFO→console.log), its text is the plain line with the `[LEVEL]` tag
colourised (ERROR red, WARN yellow, DEBUG gray, INFO blue) and the method
token cyan when present, and stripping the colour codes recovers exactly
the plain line (for payloads that carry no ESC character themselves). -/
theorem c7_console_styled_line (level : LogLevel) (message : String)
    (method : Option String) (timestamp : String) (hmsg : noEscStr message)
    (hts : noEscStr timestamp) (hm : noEscOpt method) :
    (DefaultLogAdapter.log none level message method timestamp).consoleLines
      = [⟨consoleChannel level,
          levelColor level (levelTag level) ++ " " ++ methodColorSeg method
            ++ timestamp ++ ": " ++ message ++ "\n"⟩]
    ∧ stripAnsi (styledLine level message method timestamp)
        = plainLine level message method timestamp
    ∧ consoleChannel .ERROR = .errorC ∧ consoleChannel .WARN = .warnC
    ∧ consoleChannel .DEBUG = .debugC ∧ consoleChannel .INFO = .logC := by
  refine ⟨?_, stripAnsi_styledLine level message method timestamp hmsg hts hm,
    rfl, rfl, rfl, rfl⟩
  simp [DefaultLogAdapter.log, defaultLogBody, tryCatchStr, styledLine_eq]

/-- Witness for C7 at a concrete input. -/
theorem c7_witness :
    noEscStr "hello" ∧ noEscStr "ts" ∧ noEscOpt (some "GET")
    ∧ stripAnsi (styledLine .INFO "hello" (some "GET") "ts")
        = plainLine .INFO "hello" (some "GET") "ts" := by
  refine ⟨by decide, by decide, by decide, ?_⟩
  exact (c7_console_styled_line .INFO "hello" (some "GET") "ts" (by decide)
    (by decide) (by decide)).2.1

/-- Claim C2: for a middleware invocation whose adapter does not throw, the
middleware emits exactly one INFO adapter call with message
`[requestId] url - Request started` tagged with the request method, and it
precedes the `next()` event in the synchronous trace; the installed
replacement `res.end`, whenever it fires, emits one INFO adapter call
`[requestId] url - Request completed in Nms` tagged with the same method;
and the correlation id extracted from the started line equals the one
extracted from any completed line (both are `requestId`). -/
theorem c2_correlated_request_logs {α : Type} (beh : AdapterBeh) (st : LoggerState α)
    (req : Req) (requestId : String) (startTime : Int)
    (hbeh : ∀ l m md, beh l m md = none)
    (hid : ']' ∉ requestId.data) :
    (runLogger beh st req requestId startTime).trace
      = [.adapterCall ⟨st.adapter, .INFO, startedMessage requestId req.url,
          some req.method⟩, .nextCall]
    ∧ (runLogger beh st req requestId startTime).patchedEnd
        = some (wrappedEnd requestId req.url req.method startTime)
    ∧ extractId (startedMessage requestId req.url) = some requestId
    ∧ (∀ (stEnd : LoggerState α) (now : Int) (args : EndArgs),
        (wrappedEnd requestId req.url req.method startTime : WEnd α).run beh stEnd now args
          = [.adapterCall ⟨stEnd.adapter, .INFO,
               completedMessage requestId req.url (now - startTime), some req.method⟩,
             .endDelegated args])
    ∧ (∀ duration : Int,
        extractId (completedMessage requestId req.url duration) = some requestId) := by
  refine ⟨?_, ?_, extractId_started _ _ hid, ?_,
    fun d => extractId_completed _ _ d hid⟩
  · simp [runLogger, hbeh, mkCall]
  · simp [runLogger, hbeh]
  · intro stEnd now args
    simp [wrappedEnd, hbeh, mkCall]

/-- Witness for C2 at a concrete input. -/
theorem c2_witness :
    (∀ l m md, behNone l m md = none) ∧ ']' ∉ ("req1" : String).data
    ∧ (runLogger behNone (⟨0⟩ : LoggerState Nat) ⟨"GET", "/health"⟩ "req1" 5).trace
        = [.adapterCall ⟨0, .INFO, startedMessage "req1" "/health", some "GET"⟩,
           .nextCall]
    ∧ extractId (startedMessage "req1" "/health") = some "req1"
    ∧ (wrappedEnd "req1" "/health" "GET" 5 : WEnd Nat).run behNone ⟨0⟩ 12
        ⟨none, none, none⟩
        = [.adapterCall ⟨0, .INFO, completedMessage "req1" "/health" (12 - 5),
             some "GET"⟩, .endDelegated ⟨none, none, none⟩]
    ∧ extractId (completedMessage "req1" "/health" 7) = some "req1" := by
  have h := c2_correlated_request_logs behNone (⟨0⟩ : LoggerState Nat)
    ⟨"GET", "/health"⟩ "req1" 5 (fun _ _ _ => rfl) (by decide)
  exact ⟨fun _ _ _ => rfl, by decide, h.1, h.2.2.1, h.2.2.2.1 ⟨0⟩ 12 ⟨none, none, none⟩,
    h.2.2.2.2 7⟩

/-- Claim C4, counterexample: with a bound adapter whose log call throws,
the middleware does not call the continuation at all (the exception
propagates before `next()` is reached), so "next is called exactly once
regardless of whether the adapter's log call throws" is false. -/
theorem c4_counterexample :
    ((runLogger behThrow (⟨0⟩ : LoggerState Nat) ⟨"GET", "/x"⟩ "id" 0).trace.countP
        isNextEv) = 0
    ∧ ¬(((runLogger behThrow (⟨0⟩ : LoggerState Nat) ⟨"GET", "/x"⟩ "id" 0).trace.countP
        isNextEv) = 1)
    ∧ (runLogger behThrow (⟨0⟩ : LoggerState Nat) ⟨"GET", "/x"⟩ "id" 0).exn
        = some "boom" :=
  ⟨by decide, by decide, by decide⟩

/-- Claim C4 as amended: provided the bound adapter's log call for the
started line returns normally (which the default adapter always does), the
middleware calls the continuation synchronously and exactly once, and no
exception escapes; the `next()` event sits in the middleware's own
synchronous trace, after the started log dispatch. -/
theorem c4_next_called_once {α : Type} (beh : AdapterBeh) (st : LoggerState α)
    (req : Req) (requestId : String) (startTime : Int)
    (hok : beh .INFO (startedMessage requestId req.url) (some req.method) = none) :
    (runLogger beh st req requestId startTime).trace.countP isNextEv = 1
    ∧ (runLogger beh st req requestId startTime).exn = none
    ∧ (runLogger beh st req requestId startTime).trace
        = [.adapterCall ⟨st.adapter, .INFO, startedMessage requestId req.url,
            some req.method⟩, .nextCall] := by
  refine ⟨?_, ?_, ?_⟩ <;> simp [runLogger, hok, mkCall, isNextEv]

/-- Witness for C4 at a concrete input. -/
theorem c4_witness :
    behNone .INFO (startedMessage "id" "/x") (some "GET") = none
    ∧ (runLogger behNone (⟨0⟩ : LoggerState Nat) ⟨"GET", "/x"⟩ "id" 0).trace.countP
        isNextEv = 1 :=
  ⟨rfl, (c4_next_called_once behNone ⟨0⟩ ⟨"GET", "/x"⟩ "id" 0 rfl).1⟩

/-- Claim C5: after `setLogAdapter a`, every facade or middleware dispatch
made with the new binding goes to `a` and (when `a` differs from the old
adapter) none goes to the old one; a dispatch made with the old binding
still carries the old adapter; and the replacement `res.end` dispatches to
whatever binding is current at the moment it runs, not the one captured
when it was installed. -/
theorem c5_adapter_rebinding {α : Type} (st : LoggerState α) (a : α) (message : String)
    (level : LogLevel) (method : Option String) (beh : AdapterBeh) (req : Req)
    (requestId : String) (startTime : Int) (hnew : a ≠ st.adapter) :
    (writeLog (setLogAdapter st a) message level method).map AdapterCallEv.adapter = [a]
    ∧ (∀ c, Ev.adapterCall c
          ∈ (runLogger beh (setLogAdapter st a) req requestId startTime).trace
        → c.adapter = a ∧ c.adapter ≠ st.adapter)
    ∧ (writeLog st message level method).map AdapterCallEv.adapter = [st.adapter]
    ∧ (∀ (stEnd : LoggerState α) (now : Int) (args : EndArgs) c,
        Ev.adapterCall c
            ∈ (wrappedEnd requestId req.url req.method startTime : WEnd α).run beh
                stEnd now args
          → c.adapter = stEnd.adapter) := by
  refine ⟨rfl, ?_, rfl, ?_⟩
  · intro c hc
    cases hb : beh .INFO (startedMessage requestId req.url) (some req.method) with
    | none =>
      simp [runLogger, hb, mkCall, setLogAdapter] at hc
      rw [hc]
      exact ⟨rfl, hnew⟩
    | some e =>
      simp [runLogger, hb, mkCall, setLogAdapter] at hc
      rw [hc]
      exact ⟨rfl, hnew⟩
  · intro stEnd now args c hc
    cases hb : beh .INFO (completedMessage requestId req.url (now - startTime))
        (some req.method) with
    | none =>
      simp [wrappedEnd, hb, mkCall] at hc
      rw [hc]
    | some e =>
      simp [wrappedEnd, hb, mkCall] at hc
      rw [hc]

/-- Witness for C5 at a concrete input. -/
theorem c5_witness :
    (1 : Nat) ≠ (⟨0⟩ : LoggerState Nat).adapter
    ∧ (writeLog (setLogAdapter (⟨0⟩ : LoggerState Nat) 1) "msg" .INFO none).map
        AdapterCallEv.adapter = [1]
    ∧ (writeLog (⟨0⟩ : LoggerState Nat) "msg" .INFO none).map
        AdapterCallEv.adapter = [0] := by
  have h := c5_adapter_rebinding (⟨0⟩ : LoggerState Nat) 1 "msg" .INFO none behNone
    ⟨"GET", "/x"⟩ "id" 0 (by decide)
  exact ⟨by decide, h.1, h.2.2.1⟩

/-- Claim C8, counterexample: the `log` directory is not created lazily.
The module-level statements of src/log.ts run `mkdirSync` at import time:
with no pre-existing directory and zero log writes, the process trace
already contains the directory-creation effect (and no file append). -/
theorem c8_counterexample :
    processEffects false [] = [FsEffect.mkdirEff]
    ∧ processEffects false [] ≠ []
    ∧ (processEffects false []).countP isAppendEff = 0 :=
  ⟨by decide, by decide, by decide⟩

/-- Claim C8 as amended: the directory is created eagerly at module load
when absent (never later); the log file is touched only by appends, which
occur exactly one per log call — so only the file, not the directory, is
created lazily on first need. -/
theorem c8_eager_dir_lazy_file (dirExists : Bool) (calls : List LogCallArgs) :
    processEffects dirExists calls
      = (if dirExists then [] else [FsEffect.mkdirEff])
        ++ (calls.map (fun c =>
            [FsEffect.appendEff (plainLine c.level c.message c.method c.timestamp)])).flatten
    ∧ (processEffects dirExists []).countP isAppendEff = 0 := by
  constructor
  · have hf : logCallEffects = fun c =>
        [FsEffect.appendEff (plainLine c.level c.message c.method c.timestamp)] := by
      funext c
      simp [logCallEffects, DefaultLogAdapter.log, defaultLogBody, tryCatchStr]
    rw [processEffects, moduleInitEffects, hf]
  · cases dirExists <;> decide

/-- Claim C9: the elapsed time in the completed line is computed as the
completion instant minus the start instant recorded before the
continuation ran, and under a monotone clock (start ≤ completion) it is
non-negative. -/
theorem c9_duration_consistent {α : Type} (beh : AdapterBeh)
    (requestId url method : String) (startTime : Int) (stEnd : LoggerState α)
    (now : Int) (args : EndArgs)
    (hok : beh .INFO (completedMessage requestId url (now - startTime))
        (some method) = none)
    (hmono : startTime ≤ now) :
    (wrappedEnd requestId url method startTime : WEnd α).run beh stEnd now args
      = [.adapterCall ⟨stEnd.adapter, .INFO,
           completedMessage requestId url (now - startTime), some method⟩,
         .endDelegated args]
    ∧ 0 ≤ now - startTime := by
  constructor
  · simp [wrappedEnd, hok, mkCall]
  · exact Int.sub_nonneg.mpr hmono

/-- Witness for C9 at a concrete input. -/
theorem c9_witness :
    behNone .INFO (completedMessage "id" "/u" (10 - 3)) (some "GET") = none
    ∧ (3 : Int) ≤ 10
    ∧ (wrappedEnd "id" "/u" "GET" 3 : WEnd Nat).run behNone ⟨0⟩ 10 ⟨none, none, none⟩
        = [.adapterCall ⟨0, .INFO, completedMessage "id" "/u" (10 - 3), some "GET"⟩,
           .endDelegated ⟨none, none, none⟩]
    ∧ (0 : Int) ≤ 10 - 3 := by
  have h := c9_duration_consistent behNone "id" "/u" "GET" 3 (⟨0⟩ : LoggerState Nat)
    10 ⟨none, none, none⟩ rfl (by decide)
  exact ⟨rfl, by decide, h.1, h.2⟩

/-- Claim C10: the replacement `res.end` has no once-only guard.  With a
non-throwing adapter, `k` invocations produce exactly `k` adapter calls;
each invocation emits one completed INFO line (a `completedMessage` built
from the captured `requestId`, so every line carries the same id) and then
delegates to the original `end` with its first three arguments. -/
theorem c10_end_no_once_guard {α : Type} (requestId url method : String)
    (startTime : Int) (beh : AdapterBeh) (hbeh : ∀ l m md, beh l m md = none)
    (invs : List (LoggerState α × Int × EndArgs)) :
    (runEndMany (wrappedEnd requestId url method startTime) beh invs).countP
        isAdapterCallEv = invs.length
    ∧ (∀ i ∈ invs, (wrappedEnd requestId url method startTime : WEnd α).run beh
          i.1 i.2.1 i.2.2
        = [.adapterCall ⟨i.1.adapter, .INFO,
             completedMessage requestId url (i.2.1 - startTime), some method⟩,
           .endDelegated i.2.2])
    ∧ (∀ c, Ev.adapterCall c
          ∈ runEndMany (wrappedEnd requestId url method startTime) beh invs
        → c.level = .INFO ∧ c.method = some method
          ∧ ∃ d, c.message = completedMessage requestId url d) := by
  have hrun : ∀ (st1 : LoggerState α) (t1 : Int) (a1 : EndArgs),
      (wrappedEnd requestId url method startTime : WEnd α).run beh st1 t1 a1
        = [.adapterCall ⟨st1.adapter, .INFO,
             completedMessage requestId url (t1 - startTime), some method⟩,
           .endDelegated a1] := by
    intro st1 t1 a1
    simp [wrappedEnd, hbeh, mkCall]
  refine ⟨?_, fun i _ => hrun i.1 i.2.1 i.2.2, ?_⟩
  · induction invs with
    | nil => simp [runEndMany]
    | cons i rest ih =>
      simp only [runEndMany, List.map_cons, List.flatten_cons, List.countP_append,
        List.length_cons]
      rw [hrun i.1 i.2.1 i.2.2]
      simp only [runEndMany] at ih
      rw [ih]
      simp [isAdapterCallEv, List.countP_cons, Nat.add_comm]
  · intro c hc
    simp only [runEndMany, List.mem_flatten, List.mem_map] at hc
    obtain ⟨l, ⟨i, hi, rfl⟩, hcl⟩ := hc
    rw [hrun i.1 i.2.1 i.2.2] at hcl
    simp at hcl
    rw [hcl]
    exact ⟨rfl, rfl, i.2.1 - startTime, rfl⟩

/-- Witness for C10 at a concrete input: two invocations of the replaced
`end` produce two completed lines. -/
theorem c10_witness :
    (∀ l m md, behNone l m md = none)
    ∧ (runEndMany (wrappedEnd "id" "/u" "GET" 0 : WEnd Nat) behNone
        [(⟨0⟩, 4, ⟨none, none, none⟩), (⟨0⟩, 9, ⟨none, none, none⟩)]).countP
        isAdapterCallEv = 2 :=
  ⟨fun _ _ _ => rfl,
    (c10_end_no_once_guard "id" "/u" "GET" 0 behNone (fun _ _ _ => rfl)
      [(⟨0⟩, 4, ⟨none, none, none⟩), (⟨0⟩, 9, ⟨none, none, none⟩)]).1⟩

